import Mathlib

/-!
Shallow embedding of the Snake game simulation core (`src/Snake.cpp`).

World coordinates are integer-valued in the source (floats holding exact
multiples of `cellSize` plus the board `offset`), so positions are modelled
as pairs of `Int`.  Wall-clock times and difficulty intervals (doubles in
the source) are modelled as rationals.  The raylib random generator is
modelled by an explicit list of drawn `(randX, randY)` pairs threaded into
the food spawner; the spawner returns `none` when the list of draws runs
out before a free cell is drawn, mirroring non-termination of the C++
rejection loop on that draw sequence.
-/

namespace SnakeGame

/-- Board width in world units (`constexpr int gridWidth = 800`). -/
def gridWidth : Int := 800

/-- Board height in world units (`constexpr int gridHeight = 800`). -/
def gridHeight : Int := 800

/-- Board origin offset (`constexpr int offset = 50`). -/
def offset : Int := 50

/-- Side of one grid cell (`constexpr int cellSize = 50`). -/
def cellSize : Int := 50

/-- Number of cell rows (`constexpr float rows = gridHeight / cellSize`). -/
def rows : Int := gridHeight / cellSize

/-- Number of cell columns (`constexpr float cols = gridWidth / cellSize`). -/
def cols : Int := gridWidth / cellSize

/-- A raylib `Vector2` restricted to the integer grid values the game uses. -/
structure Vec2 where
  x : Int
  y : Int
  deriving DecidableEq, Repr

instance : Inhabited Vec2 := ⟨⟨0, 0⟩⟩

instance : Add Vec2 := ⟨fun a b => ⟨a.x + b.x, a.y + b.y⟩⟩

instance : Neg Vec2 := ⟨fun a => ⟨-a.x, -a.y⟩⟩

/-- Scalar multiple of a vector, `n * v` componentwise. -/
def Vec2.smul (n : Int) (v : Vec2) : Vec2 := ⟨n * v.x, n * v.y⟩

/-- The unit direction written `{0, -1}` in `Snake::getMoveDirection`. -/
def dirUp : Vec2 := ⟨0, -1⟩

/-- The unit direction written `{0, 1}` in `Snake::getMoveDirection`. -/
def dirDown : Vec2 := ⟨0, 1⟩

/-- The unit direction written `{-1, 0}` in `Snake::getMoveDirection`. -/
def dirLeft : Vec2 := ⟨-1, 0⟩

/-- The unit direction written `{1, 0}` in `Snake::getMoveDirection`. -/
def dirRight : Vec2 := ⟨1, 0⟩

/-- Pressed state of the four movement keys read by `IsKeyDown` (W, S, A, D). -/
structure Keys where
  w : Bool
  s : Bool
  a : Bool
  d : Bool
  deriving DecidableEq, Repr

/-- No movement key pressed. -/
def noKeys : Keys := ⟨false, false, false, false⟩

/-- `GameSettings::Difficulty` is a scoped C++ enum; it is modelled by its
underlying integer so that the `default` branch of `getInterval` (reachable
only for out-of-range underlying values) is expressible. -/
def Easy : Int := 0

/-- Underlying value of `Difficulty::Medium`. -/
def Medium : Int := 1

/-- Underlying value of `Difficulty::Hard`. -/
def Hard : Int := 2

/-- `GameSettings::getInterval`: difficulty tier to seconds between advances. -/
def getInterval (difficulty : Int) : ℚ :=
  if difficulty = Easy then 1/2
  else if difficulty = Medium then 3/10
  else if difficulty = Hard then 1/10
  else 3/5

/-- `GameSettings::setDifficulty`: difficulty name to difficulty value. -/
def setDifficulty (sDifficulty : String) : Int :=
  if sDifficulty = "Easy" then Easy
  else if sDifficulty = "Medium" then Medium
  else if sDifficulty = "Hard" then Hard
  else Easy

/-- The state mutated by `Snake::getMoveDirection`, `Snake::moveSnake`,
`CollisionHandler`, `ScoreHandler` and `GameCore::Update`, gathered in one
record.  `chGameOver` is `CollisionHandler::gameOver`; `gcGameOver` is
`GameCore::gameOver`; `lastUpdateTime` is the static local of
`Snake::Update`; `score` and `length` are the static members of
`ScoreHandler`. -/
structure GameState where
  snakeBody : List Vec2
  lastDirection : Vec2
  addSegment : Bool
  interval : ℚ
  lastUpdateTime : ℚ
  applePos : Vec2
  foodEaten : Bool
  chGameOver : Bool
  gcGameOver : Bool
  score : Int
  length : Int
  deriving DecidableEq, Repr

/-- The update of `lastDirection` performed by `Snake::getMoveDirection`:
the W, S, A, D branches in order, each guarded by the no-reversal test on
the stored direction. -/
def resolveDirection (k : Keys) (last : Vec2) : Vec2 :=
  if k.w = true ∧ last.y ≠ 1 then dirUp
  else if k.s = true ∧ last.y ≠ -1 then dirDown
  else if k.a = true ∧ last.x ≠ 1 then dirLeft
  else if k.d = true ∧ last.x ≠ -1 then dirRight
  else last

/-- `Snake::moveSnake`: push the new head (old head plus the already-scaled
direction) at the front; if `addSegment` is set clear it, otherwise pop the
tail.  Returns the new body and the new `addSegment` flag. -/
def moveSnake (snakeBody : List Vec2) (addSegment : Bool) (direction : Vec2) :
    List Vec2 × Bool :=
  let pushed := (snakeBody.headI + direction) :: snakeBody
  if addSegment then (pushed, false) else (pushed.dropLast, false)

/-- `Snake::Update`: resolve the direction every frame (mutating
`lastDirection`), then advance the body only when the elapsed time since
the last advance has reached the difficulty interval. -/
def snakeUpdate (s : GameState) (k : Keys) (currentTime : ℚ) : GameState :=
  let nd := resolveDirection k s.lastDirection
  if s.interval ≤ currentTime - s.lastUpdateTime then
    let moved := moveSnake s.snakeBody s.addSegment (Vec2.smul cellSize nd)
    { s with lastDirection := nd, snakeBody := moved.1, addSegment := moved.2,
             lastUpdateTime := currentTime }
  else { s with lastDirection := nd }

/-- `ScoreHandler::scoreMultiplier`. -/
def scoreMultiplier : Int := 10

/-- `ScoreHandler::Update`: consume a pending `foodEaten` signal into the
score and length counters, then clear it. -/
def scoreUpdate (s : GameState) : GameState :=
  if s.foodEaten then
    { s with score := s.score + scoreMultiplier, length := s.length + 1,
             foodEaten := false }
  else s

/-- World position of the drawn cell `(randX, randY)`,
`{randX * cellSize + offset, randY * cellSize + offset}`. -/
def cellToPos (randX randY : Int) : Vec2 :=
  ⟨randX * cellSize + offset, randY * cellSize + offset⟩

/-- `Food::shouldGenerateAgain`: the drawn position collides with a body cell. -/
def shouldGenerateAgain (snakeBody : List Vec2) (pos : Vec2) : Bool :=
  snakeBody.any (fun body => body = pos)

/-- `Food::generateRandomPos`: rejection sampling over an explicit list of
random draws; `none` models exhausting the supplied draws without finding a
free cell. -/
def generateRandomPos (snakeBody : List Vec2) :
    List (Int × Int) → Option Vec2
  | [] => none
  | d :: ds =>
    let pos := cellToPos d.1 d.2
    if shouldGenerateAgain snakeBody pos then generateRandomPos snakeBody ds
    else some pos

/-- The range contract of `GetRandomValue(0, rows - 1)` and
`GetRandomValue(0, cols - 1)` for one draw. -/
def validDraw (d : Int × Int) : Prop :=
  0 ≤ d.1 ∧ d.1 ≤ rows - 1 ∧ 0 ≤ d.2 ∧ d.2 ≤ cols - 1

instance (d : Int × Int) : Decidable (validDraw d) := by
  unfold validDraw; infer_instance

/-- `CollisionHandler::foodCollisionHandle`: when the head sits on the
apple, respawn the apple off the current body, request growth and raise the
food-eaten signal. -/
def foodCollisionHandle (s : GameState) (draws : List (Int × Int)) :
    Option GameState :=
  if s.snakeBody.headI = s.applePos then
    match generateRandomPos s.snakeBody draws with
    | none => none
    | some pos =>
      some { s with applePos := pos, addSegment := true, foodEaten := true }
  else some s

/-- `CollisionHandler::borderCollisionHandle`: latch game over when the head
leaves the board rectangle. -/
def borderCollisionHandle (s : GameState) (snakeHead : Vec2) : GameState :=
  if snakeHead.x < offset ∨ gridWidth + offset ≤ snakeHead.x ∨
     snakeHead.y < offset ∨ gridHeight + offset ≤ snakeHead.y then
    { s with chGameOver := true }
  else s

/-- `CollisionHandler::selfCollisionHandle`: latch game over when the head
equals a body segment at index at least 1. -/
def selfCollisionHandle (s : GameState) (snakeHead : Vec2) : GameState :=
  if snakeHead ∈ s.snakeBody.tail then { s with chGameOver := true } else s

/-- `CollisionHandler::handle`: capture the head once, run the food, border
and self checks in that order. -/
def collisionHandle (s : GameState) (draws : List (Int × Int)) :
    Option GameState :=
  let snakeHead := s.snakeBody.headI
  match foodCollisionHandle s draws with
  | none => none
  | some s1 => some (selfCollisionHandle (borderCollisionHandle s1 snakeHead) snakeHead)

/-- `GameCore::Update`: when not game over, run `Snake::Update`, then
`ScoreHandler::Update`, then `CollisionHandler::handle`, and store the
returned flag.  A game-over frame performs no simulation work. -/
def gameTick (s : GameState) (k : Keys) (currentTime : ℚ)
    (draws : List (Int × Int)) : Option GameState :=
  if s.gcGameOver then some s
  else
    let s1 := snakeUpdate s k currentTime
    let s2 := scoreUpdate s1
    match collisionHandle s2 draws with
    | none => none
    | some s3 => some { s3 with gcGameOver := s3.chGameOver }

/-- The two-segment starting body of `Snake::snakeBody`. -/
def initBody : List Vec2 :=
  [⟨cols * cellSize / 2 - cellSize, rows * cellSize / 2 - cellSize⟩,
   ⟨cols * cellSize / 2, rows * cellSize / 2 - cellSize⟩]

/-- Direction resolver written from the specification text, for comparison
with `resolveDirection`: candidates are evaluated in the fixed order Up,
Down, Left, Right, and the first pressed one that is not the exact reverse
of the previous direction wins; otherwise the previous direction is kept. -/
def specResolve (k : Keys) (last : Vec2) : Vec2 :=
  match [(k.w, dirUp), (k.s, dirDown), (k.a, dirLeft), (k.d, dirRight)].find?
      (fun c => c.1 && decide (c.2 ≠ -last)) with
  | some c => c.2
  | none => last

/-- The key set pressing exactly the key whose direction is `v`. -/
def keysOnly (v : Vec2) : Keys :=
  ⟨decide (v = dirUp), decide (v = dirDown), decide (v = dirLeft), decide (v = dirRight)⟩

/-- Only the W key pressed. -/
def keyW : Keys := ⟨true, false, false, false⟩

/-- Only the D key pressed. -/
def keyD : Keys := ⟨false, false, false, true⟩

/-- One advance of the body with the growth flag down, as iterated for the
linear-motion property. -/
def advance (dir : Vec2) (body : List Vec2) : List Vec2 :=
  (moveSnake body false dir).1

/-- A reachable running state on Medium difficulty: the apple sits one cell
to the left of the head, the first scheduled advance has not happened yet. -/
def s0CE : GameState :=
  { snakeBody := [⟨350, 350⟩, ⟨400, 350⟩], lastDirection := dirLeft,
    addSegment := false, interval := 3/10, lastUpdateTime := 0,
    applePos := ⟨300, 350⟩, foodEaten := false, chGameOver := false,
    gcGameOver := false, score := 0, length := 2 }

/-- The state after one tick of `s0CE` at time 1 with draw `(0, 0)`: the
head has moved onto the apple, the apple has respawned at `(50, 50)`, the
food-eaten signal is up, but score and length are still untouched. -/
def t1CE : GameState :=
  { snakeBody := [⟨300, 350⟩, ⟨350, 350⟩], lastDirection := dirLeft,
    addSegment := true, interval := 3/10, lastUpdateTime := 1,
    applePos := ⟨50, 50⟩, foodEaten := true, chGameOver := false,
    gcGameOver := false, score := 0, length := 2 }

/-- The state after one further tick of `t1CE` at time 2 with no draws: the
pending growth keeps the tail, and the score handler finally consumes the
food-eaten signal. -/
def t2CE : GameState :=
  { snakeBody := [⟨250, 350⟩, ⟨300, 350⟩, ⟨350, 350⟩], lastDirection := dirLeft,
    addSegment := false, interval := 3/10, lastUpdateTime := 2,
    applePos := ⟨50, 50⟩, foodEaten := false, chGameOver := false,
    gcGameOver := false, score := 10, length := 3 }

/-- A state with the game-over latch set. -/
def sOverCE : GameState :=
  { t1CE with gcGameOver := true, chGameOver := true }

/-- A running state just used to exhibit the direction-reversal frames:
the snake is travelling left on Medium difficulty. -/
def s0Rev : GameState :=
  { snakeBody := [⟨400, 350⟩, ⟨450, 350⟩], lastDirection := dirLeft,
    addSegment := false, interval := 3/10, lastUpdateTime := 0,
    applePos := ⟨50, 50⟩, foodEaten := false, chGameOver := false,
    gcGameOver := false, score := 0, length := 2 }

/-- Frame at time 1/2: a scheduled advance moving left. -/
def revFrame1 : GameState := snakeUpdate s0Rev noKeys (1/2)

/-- Frame at time 3/5, inside the next movement interval, W pressed. -/
def revFrame2 : GameState := snakeUpdate revFrame1 keyW (3/5)

/-- Frame at time 7/10, still inside the same movement interval, D pressed. -/
def revFrame3 : GameState := snakeUpdate revFrame2 keyD (7/10)

/-- Frame at time 1: the next scheduled advance. -/
def revFrame4 : GameState := snakeUpdate revFrame3 noKeys 1

theorem Vec2.add_def (a b : Vec2) : a + b = ⟨a.x + b.x, a.y + b.y⟩ := rfl

theorem Vec2.neg_def (a : Vec2) : -a = ⟨-a.x, -a.y⟩ := rfl

theorem Vec2.add_smul_succ (a v : Vec2) (n : ℕ) :
    a + Vec2.smul (n : ℤ) v + v = a + Vec2.smul ((n + 1 : ℕ) : ℤ) v := by
  cases a; cases v
  simp only [Vec2.add_def, Vec2.smul, Vec2.mk.injEq]
  push_cast
  constructor <;> ring

theorem Vec2.add_smul_zero (a v : Vec2) : a + Vec2.smul (0 : ℤ) v = a := by
  cases a; cases v
  simp [Vec2.add_def, Vec2.smul]

theorem shouldGenerateAgain_iff (body : List Vec2) (pos : Vec2) :
    shouldGenerateAgain body pos = true ↔ pos ∈ body := by
  simp only [shouldGenerateAgain, List.any_eq_true, decide_eq_true_eq]
  constructor
  · rintro ⟨b, hb, rfl⟩; exact hb
  · intro h; exact ⟨pos, h, rfl⟩

theorem generateRandomPos_not_mem (body : List Vec2) :
    ∀ (draws : List (Int × Int)) (p : Vec2),
      generateRandomPos body draws = some p → p ∉ body := by
  intro draws
  induction draws with
  | nil => intro p h; cases h
  | cons d ds ih =>
    intro p h
    unfold generateRandomPos at h
    by_cases hcol : shouldGenerateAgain body (cellToPos d.1 d.2) = true
    · rw [if_pos hcol] at h
      exact ih p h
    · rw [if_neg hcol] at h
      cases h
      intro hmem
      exact hcol ((shouldGenerateAgain_iff body _).mpr hmem)

theorem moveSnake_flag (body : List Vec2) (seg : Bool) (dir : Vec2) :
    (moveSnake body seg dir).2 = false := by
  simp only [moveSnake]
  split <;> rfl

theorem moveSnake_true_eq (body : List Vec2) (dir : Vec2) :
    moveSnake body true dir = ((body.headI + dir) :: body, false) := rfl

theorem moveSnake_false_eq (body : List Vec2) (dir : Vec2) (h : body ≠ []) :
    moveSnake body false dir = ((body.headI + dir) :: body.dropLast, false) := by
  simp only [moveSnake, if_neg Bool.false_ne_true, List.dropLast_cons_of_ne_nil h]

theorem moveSnake_ne_nil (body : List Vec2) (seg : Bool) (dir : Vec2)
    (h : body ≠ []) : (moveSnake body seg dir).1 ≠ [] := by
  cases seg
  · rw [moveSnake_false_eq body dir h]; exact List.cons_ne_nil _ _
  · rw [moveSnake_true_eq]; exact List.cons_ne_nil _ _

theorem moveSnake_headI (body : List Vec2) (seg : Bool) (dir : Vec2)
    (h : body ≠ []) : (moveSnake body seg dir).1.headI = body.headI + dir := by
  cases seg
  · rw [moveSnake_false_eq body dir h]; rfl
  · rw [moveSnake_true_eq]; rfl

theorem moveSnake_mem (body : List Vec2) (seg : Bool) (dir : Vec2) (v : Vec2)
    (h : v ∈ (moveSnake body seg dir).1) : v = body.headI + dir ∨ v ∈ body := by
  cases seg <;> simp only [moveSnake, if_neg Bool.false_ne_true, if_pos rfl] at h
  · rcases List.mem_cons.mp (List.mem_of_mem_dropLast h) with h | h
    · exact Or.inl h
    · exact Or.inr h
  · rcases List.mem_cons.mp h with h | h
    · exact Or.inl h
    · exact Or.inr h

theorem snakeUpdate_score (s : GameState) (k : Keys) (t : ℚ) :
    (snakeUpdate s k t).score = s.score := by
  simp only [snakeUpdate]; split <;> rfl

theorem snakeUpdate_length (s : GameState) (k : Keys) (t : ℚ) :
    (snakeUpdate s k t).length = s.length := by
  simp only [snakeUpdate]; split <;> rfl

theorem snakeUpdate_foodEaten (s : GameState) (k : Keys) (t : ℚ) :
    (snakeUpdate s k t).foodEaten = s.foodEaten := by
  simp only [snakeUpdate]; split <;> rfl

theorem snakeUpdate_chGameOver (s : GameState) (k : Keys) (t : ℚ) :
    (snakeUpdate s k t).chGameOver = s.chGameOver := by
  simp only [snakeUpdate]; split <;> rfl

theorem snakeUpdate_gcGameOver (s : GameState) (k : Keys) (t : ℚ) :
    (snakeUpdate s k t).gcGameOver = s.gcGameOver := by
  simp only [snakeUpdate]; split <;> rfl

theorem snakeUpdate_applePos (s : GameState) (k : Keys) (t : ℚ) :
    (snakeUpdate s k t).applePos = s.applePos := by
  simp only [snakeUpdate]; split <;> rfl

theorem snakeUpdate_body_of_advance (s : GameState) (k : Keys) (t : ℚ)
    (h : s.interval ≤ t - s.lastUpdateTime) :
    (snakeUpdate s k t).snakeBody =
      (moveSnake s.snakeBody s.addSegment
        (Vec2.smul cellSize (resolveDirection k s.lastDirection))).1 ∧
    (snakeUpdate s k t).addSegment = false := by
  simp only [snakeUpdate, if_pos h]
  simp [moveSnake_flag]

theorem snakeUpdate_body_of_wait (s : GameState) (k : Keys) (t : ℚ)
    (h : ¬ s.interval ≤ t - s.lastUpdateTime) :
    (snakeUpdate s k t).snakeBody = s.snakeBody ∧
    (snakeUpdate s k t).addSegment = s.addSegment ∧
    (snakeUpdate s k t).lastUpdateTime = s.lastUpdateTime := by
  simp only [snakeUpdate, if_neg h]
  simp

theorem snakeUpdate_body_cases (s : GameState) (k : Keys) (t : ℚ) :
    (snakeUpdate s k t).snakeBody = s.snakeBody ∨
    (snakeUpdate s k t).snakeBody =
      (moveSnake s.snakeBody s.addSegment
        (Vec2.smul cellSize (resolveDirection k s.lastDirection))).1 := by
  by_cases h : s.interval ≤ t - s.lastUpdateTime
  · exact Or.inr (snakeUpdate_body_of_advance s k t h).1
  · exact Or.inl (snakeUpdate_body_of_wait s k t h).1

theorem scoreUpdate_snakeBody (s : GameState) :
    (scoreUpdate s).snakeBody = s.snakeBody := by
  simp only [scoreUpdate]; split <;> rfl

theorem scoreUpdate_applePos (s : GameState) :
    (scoreUpdate s).applePos = s.applePos := by
  simp only [scoreUpdate]; split <;> rfl

theorem scoreUpdate_addSegment (s : GameState) :
    (scoreUpdate s).addSegment = s.addSegment := by
  simp only [scoreUpdate]; split <;> rfl

theorem scoreUpdate_chGameOver (s : GameState) :
    (scoreUpdate s).chGameOver = s.chGameOver := by
  simp only [scoreUpdate]; split <;> rfl

theorem scoreUpdate_gcGameOver (s : GameState) :
    (scoreUpdate s).gcGameOver = s.gcGameOver := by
  simp only [scoreUpdate]; split <;> rfl

theorem scoreUpdate_score (s : GameState) :
    (scoreUpdate s).score = s.score + (if s.foodEaten = true then scoreMultiplier else 0) ∧
    (scoreUpdate s).length = s.length + (if s.foodEaten = true then 1 else 0) := by
  simp only [scoreUpdate]
  split
  · next h => simp [h]
  · next h => simp [h]

theorem foodCollisionHandle_some (s : GameState) (draws : List (Int × Int))
    (s' : GameState) (h : foodCollisionHandle s draws = some s') :
    (s.snakeBody.headI = s.applePos ∧ ∃ pos,
      generateRandomPos s.snakeBody draws = some pos ∧
      s' = { s with applePos := pos, addSegment := true, foodEaten := true }) ∨
    (s.snakeBody.headI ≠ s.applePos ∧ s' = s) := by
  unfold foodCollisionHandle at h
  by_cases heq : s.snakeBody.headI = s.applePos
  · rw [if_pos heq] at h
    cases hg : generateRandomPos s.snakeBody draws with
    | none => rw [hg] at h; cases h
    | some pos =>
      rw [hg] at h
      injection h with h'
      exact Or.inl ⟨heq, pos, rfl, h'.symm⟩
  · rw [if_neg heq] at h
    injection h with h'
    exact Or.inr ⟨heq, h'.symm⟩

theorem borderCollisionHandle_snakeBody (s : GameState) (hd : Vec2) :
    (borderCollisionHandle s hd).snakeBody = s.snakeBody := by
  simp only [borderCollisionHandle]; split <;> rfl

theorem borderCollisionHandle_applePos (s : GameState) (hd : Vec2) :
    (borderCollisionHandle s hd).applePos = s.applePos := by
  simp only [borderCollisionHandle]; split <;> rfl

theorem borderCollisionHandle_addSegment (s : GameState) (hd : Vec2) :
    (borderCollisionHandle s hd).addSegment = s.addSegment := by
  simp only [borderCollisionHandle]; split <;> rfl

theorem borderCollisionHandle_foodEaten (s : GameState) (hd : Vec2) :
    (borderCollisionHandle s hd).foodEaten = s.foodEaten := by
  simp only [borderCollisionHandle]; split <;> rfl

theorem borderCollisionHandle_score (s : GameState) (hd : Vec2) :
    (borderCollisionHandle s hd).score = s.score := by
  simp only [borderCollisionHandle]; split <;> rfl

theorem borderCollisionHandle_length (s : GameState) (hd : Vec2) :
    (borderCollisionHandle s hd).length = s.length := by
  simp only [borderCollisionHandle]; split <;> rfl

theorem borderCollisionHandle_flag (s : GameState) (hd : Vec2) :
    ((borderCollisionHandle s hd).chGameOver = true ↔
      (hd.x < offset ∨ gridWidth + offset ≤ hd.x ∨
       hd.y < offset ∨ gridHeight + offset ≤ hd.y) ∨ s.chGameOver = true) := by
  simp only [borderCollisionHandle]
  split
  · next h => simp [h]
  · next h => simp [h]

theorem selfCollisionHandle_snakeBody (s : GameState) (hd : Vec2) :
    (selfCollisionHandle s hd).snakeBody = s.snakeBody := by
  simp only [selfCollisionHandle]; split <;> rfl

theorem selfCollisionHandle_applePos (s : GameState) (hd : Vec2) :
    (selfCollisionHandle s hd).applePos = s.applePos := by
  simp only [selfCollisionHandle]; split <;> rfl

theorem selfCollisionHandle_addSegment (s : GameState) (hd : Vec2) :
    (selfCollisionHandle s hd).addSegment = s.addSegment := by
  simp only [selfCollisionHandle]; split <;> rfl

theorem selfCollisionHandle_foodEaten (s : GameState) (hd : Vec2) :
    (selfCollisionHandle s hd).foodEaten = s.foodEaten := by
  simp only [selfCollisionHandle]; split <;> rfl

theorem selfCollisionHandle_score (s : GameState) (hd : Vec2) :
    (selfCollisionHandle s hd).score = s.score := by
  simp only [selfCollisionHandle]; split <;> rfl

theorem selfCollisionHandle_length (s : GameState) (hd : Vec2) :
    (selfCollisionHandle s hd).length = s.length := by
  simp only [selfCollisionHandle]; split <;> rfl

theorem selfCollisionHandle_flag (s : GameState) (hd : Vec2) :
    ((selfCollisionHandle s hd).chGameOver = true ↔
      hd ∈ s.snakeBody.tail ∨ s.chGameOver = true) := by
  simp only [selfCollisionHandle]
  split
  · next h => simp [h]
  · next h => simp [h]

theorem collisionHandle_some (s : GameState) (draws : List (Int × Int))
    (s3 : GameState) (h : collisionHandle s draws = some s3) :
    ∃ sf, foodCollisionHandle s draws = some sf ∧
      s3 = selfCollisionHandle (borderCollisionHandle sf s.snakeBody.headI)
        s.snakeBody.headI := by
  unfold collisionHandle at h
  cases hf : foodCollisionHandle s draws with
  | none => rw [hf] at h; cases h
  | some sf =>
    rw [hf] at h
    cases h
    exact ⟨sf, rfl, rfl⟩

theorem moveSnake_headI_of_mem (body : List Vec2) (seg : Bool) (dir : Vec2)
    (hne : (moveSnake body seg dir).1 ≠ []) :
    (moveSnake body seg dir).1.headI = body.headI + dir := by
  cases seg
  · cases body with
    | nil => exact absurd rfl hne
    | cons a l => exact moveSnake_headI (a :: l) false dir (List.cons_ne_nil a l)
  · rw [moveSnake_true_eq]
    rfl

theorem gameTick_over (s : GameState) (k : Keys) (t : ℚ)
    (draws : List (Int × Int)) (h : s.gcGameOver = true) :
    gameTick s k t draws = some s := by
  unfold gameTick
  rw [if_pos h]

theorem gameTick_running (s : GameState) (k : Keys) (t : ℚ)
    (draws : List (Int × Int)) (s' : GameState) (hgc : s.gcGameOver = false)
    (h : gameTick s k t draws = some s') :
    ∃ s3, collisionHandle (scoreUpdate (snakeUpdate s k t)) draws = some s3 ∧
      s' = { s3 with gcGameOver := s3.chGameOver } := by
  unfold gameTick at h
  rw [if_neg (by rw [hgc]; exact Bool.false_ne_true)] at h
  replace h : (match collisionHandle (scoreUpdate (snakeUpdate s k t)) draws with
      | none => none
      | some s3 => some { s3 with gcGameOver := s3.chGameOver }) = some s' := h
  cases hc : collisionHandle (scoreUpdate (snakeUpdate s k t)) draws with
  | none => rw [hc] at h; cases h
  | some s3 =>
    rw [hc] at h
    injection h with h'
    refine ⟨s3, ?_, ?_⟩
    · rfl
    · exact h'.symm

theorem tick1_eq : gameTick s0CE noKeys 1 [(0, 0)] = some t1CE := by
  norm_num [gameTick, snakeUpdate, scoreUpdate, collisionHandle, foodCollisionHandle,
    borderCollisionHandle, selfCollisionHandle, moveSnake, resolveDirection,
    generateRandomPos, shouldGenerateAgain, cellToPos, s0CE, t1CE, noKeys,
    dirLeft, cellSize, offset, gridWidth, gridHeight, Vec2.smul, List.headI,
    scoreMultiplier, Vec2.add_def]

theorem tick2_eq : gameTick t1CE noKeys 2 [] = some t2CE := by
  norm_num [gameTick, snakeUpdate, scoreUpdate, collisionHandle, foodCollisionHandle,
    borderCollisionHandle, selfCollisionHandle, moveSnake, resolveDirection,
    generateRandomPos, shouldGenerateAgain, cellToPos, t1CE, t2CE, noKeys,
    dirLeft, cellSize, offset, gridWidth, gridHeight, Vec2.smul, List.headI,
    scoreMultiplier, Vec2.add_def]

theorem revFrame1_eq : revFrame1 =
    { snakeBody := [⟨350, 350⟩, ⟨400, 350⟩], lastDirection := dirLeft,
      addSegment := false, interval := 3/10, lastUpdateTime := 1/2,
      applePos := ⟨50, 50⟩, foodEaten := false, chGameOver := false,
      gcGameOver := false, score := 0, length := 2 } := by
  norm_num [revFrame1, snakeUpdate, moveSnake, resolveDirection, s0Rev, noKeys,
    dirLeft, cellSize, Vec2.smul, Vec2.add_def, List.headI]

theorem revFrame2_eq : revFrame2 =
    { snakeBody := [⟨350, 350⟩, ⟨400, 350⟩], lastDirection := dirUp,
      addSegment := false, interval := 3/10, lastUpdateTime := 1/2,
      applePos := ⟨50, 50⟩, foodEaten := false, chGameOver := false,
      gcGameOver := false, score := 0, length := 2 } := by
  rw [revFrame2, revFrame1_eq]
  norm_num [snakeUpdate, resolveDirection, keyW, dirLeft, dirUp]

theorem revFrame3_eq : revFrame3 =
    { snakeBody := [⟨350, 350⟩, ⟨400, 350⟩], lastDirection := dirRight,
      addSegment := false, interval := 3/10, lastUpdateTime := 1/2,
      applePos := ⟨50, 50⟩, foodEaten := false, chGameOver := false,
      gcGameOver := false, score := 0, length := 2 } := by
  rw [revFrame3, revFrame2_eq]
  norm_num [snakeUpdate, resolveDirection, keyD, dirUp, dirRight]

theorem revFrame4_eq : revFrame4 =
    { snakeBody := [⟨400, 350⟩, ⟨350, 350⟩], lastDirection := dirRight,
      addSegment := false, interval := 3/10, lastUpdateTime := 1,
      applePos := ⟨50, 50⟩, foodEaten := false, chGameOver := false,
      gcGameOver := false, score := 0, length := 2 } := by
  rw [revFrame4, revFrame3_eq]
  norm_num [snakeUpdate, moveSnake, resolveDirection, noKeys, dirRight,
    cellSize, Vec2.smul, Vec2.add_def, List.headI]

theorem advance_iterate_ne_nil (dir : Vec2) (N : ℕ) (body : List Vec2)
    (h : body ≠ []) : (advance dir)^[N] body ≠ [] := by
  induction N with
  | zero => simpa using h
  | succ n ih =>
    rw [Function.iterate_succ_apply']
    exact moveSnake_ne_nil _ _ _ ih

/-- Claim C3: the game-over flag is a one-way latch: a tick taken with the
flag set returns the state unchanged, so the snake body, direction, food
position, score and length are all frozen and no tick ever clears the
flag. -/
theorem gameOver_latch (s : GameState) (k : Keys) (t : ℚ)
    (draws : List (Int × Int)) (h : s.gcGameOver = true) :
    gameTick s k t draws = some s :=
  gameTick_over s k t draws h

/-- Witness for claim C3 at a concrete game-over state. -/
theorem gameOver_latch_witness :
    sOverCE.gcGameOver = true ∧ gameTick sOverCE noKeys 2 [] = some sOverCE :=
  ⟨rfl, gameOver_latch sOverCE noKeys 2 [] rfl⟩

/-- Claim C8: the interval lookup maps Easy to 0.5 seconds, Medium to 0.3,
Hard to 0.1 and any other difficulty value to the 0.6 fallback, and
difficulty-name parsing maps any string other than the three recognised
names to Easy. -/
theorem getInterval_spec :
    getInterval Easy = 1/2 ∧ getInterval Medium = 3/10 ∧ getInterval Hard = 1/10 ∧
    (∀ d : Int, d ≠ Easy → d ≠ Medium → d ≠ Hard → getInterval d = 3/5) ∧
    (∀ str : String, str ≠ "Easy" → str ≠ "Medium" → str ≠ "Hard" →
      setDifficulty str = Easy) := by
  refine ⟨rfl, ?_, ?_, ?_, ?_⟩
  · unfold getInterval
    rw [if_neg (by decide), if_pos rfl]
  · unfold getInterval
    rw [if_neg (by decide), if_neg (by decide), if_pos rfl]
  · intro d h0 h1 h2
    unfold getInterval
    rw [if_neg h0, if_neg h1, if_neg h2]
  · intro str h0 h1 h2
    unfold setDifficulty
    rw [if_neg h0, if_neg h1, if_neg h2]

/-- Witness for claim C8 at an out-of-range difficulty value and an
unrecognised difficulty name. -/
theorem getInterval_spec_witness :
    getInterval 7 = 3/5 ∧ setDifficulty "Expert" = Easy :=
  ⟨getInterval_spec.2.2.2.1 7 (by decide) (by decide) (by decide),
   getInterval_spec.2.2.2.2 "Expert" (by decide) (by decide) (by decide)⟩

/-- Claim C6: for every previous direction and every key set, the resolver
returns the first pressed candidate in the fixed order Up, Down, Left,
Right that is not the exact reverse of the previous direction, keeping the
previous direction when no candidate qualifies; in particular pressing
only the exact opposite key leaves the direction unchanged. -/
theorem resolveDirection_spec (last : Vec2)
    (hlast : last = dirUp ∨ last = dirDown ∨ last = dirLeft ∨ last = dirRight) :
    (∀ w s a d : Bool,
      resolveDirection ⟨w, s, a, d⟩ last = specResolve ⟨w, s, a, d⟩ last) ∧
    resolveDirection (keysOnly (-last)) last = last := by
  rcases hlast with h | h | h | h <;> subst h <;> exact ⟨by decide, by decide⟩

/-- Witness for claim C6 with the snake moving left and only the D key
(the exact opposite) pressed. -/
theorem resolveDirection_spec_witness :
    resolveDirection ⟨true, false, true, false⟩ dirLeft =
      specResolve ⟨true, false, true, false⟩ dirLeft ∧
    resolveDirection (keysOnly (-dirLeft)) dirLeft = dirLeft :=
  ⟨(resolveDirection_spec dirLeft (Or.inr (Or.inr (Or.inl rfl)))).1 true false true false,
   (resolveDirection_spec dirLeft (Or.inr (Or.inr (Or.inl rfl)))).2⟩

/-- Claim C5: on an advance the new head equals the old head plus the
scaled direction and is pushed at the front; a set growth flag is cleared
and the tail kept (net length +1), otherwise the tail is removed (net
length unchanged); frames whose elapsed time is below the interval do not
mutate the body; hence N advances with a constant direction translate the
head by N times the scaled direction. -/
theorem movement_spec :
    (∀ (body : List Vec2) (dir : Vec2),
      moveSnake body true dir = ((body.headI + dir) :: body, false)) ∧
    (∀ (body : List Vec2) (dir : Vec2), body ≠ [] →
      moveSnake body false dir = ((body.headI + dir) :: body.dropLast, false)) ∧
    (∀ (body : List Vec2) (dir : Vec2), body ≠ [] →
      (moveSnake body true dir).1.length = body.length + 1 ∧
      (moveSnake body false dir).1.length = body.length) ∧
    (∀ (s : GameState) (k : Keys) (t : ℚ), ¬ s.interval ≤ t - s.lastUpdateTime →
      (snakeUpdate s k t).snakeBody = s.snakeBody ∧
      (snakeUpdate s k t).addSegment = s.addSegment) ∧
    (∀ (d : Vec2) (N : ℕ) (body : List Vec2), body ≠ [] →
      ((advance (Vec2.smul cellSize d))^[N] body).headI =
        body.headI + Vec2.smul (N : ℤ) (Vec2.smul cellSize d)) := by
  refine ⟨fun body dir => moveSnake_true_eq body dir,
    fun body dir h => moveSnake_false_eq body dir h, ?_, ?_, ?_⟩
  · intro body dir h
    constructor
    · rw [moveSnake_true_eq]
      simp
    · rw [moveSnake_false_eq body dir h]
      simp [List.length_dropLast]
      exact Nat.succ_pred_eq_of_pos (List.length_pos.mpr h)
  · intro s k t h
    exact ⟨(snakeUpdate_body_of_wait s k t h).1, (snakeUpdate_body_of_wait s k t h).2.1⟩
  · intro d N body hb
    induction N with
    | zero => simp [Vec2.add_smul_zero]
    | succ n ih =>
      rw [Function.iterate_succ_apply', advance,
        moveSnake_headI _ _ _ (advance_iterate_ne_nil _ n body hb), ih]
      exact Vec2.add_smul_succ body.headI (Vec2.smul cellSize d) n

/-- Witness for claim C5: a waiting frame leaves the body alone, and three
advances to the left translate the head by three cells. -/
theorem movement_spec_witness :
    (snakeUpdate s0CE noKeys (1/10)).snakeBody = s0CE.snakeBody ∧
    ((advance (Vec2.smul cellSize dirLeft))^[3] [⟨400, 350⟩, ⟨450, 350⟩]).headI =
      ([⟨400, 350⟩, ⟨450, 350⟩] : List Vec2).headI +
        Vec2.smul ((3 : ℕ) : ℤ) (Vec2.smul cellSize dirLeft) :=
  ⟨(movement_spec.2.2.2.1 s0CE noKeys (1/10) (by norm_num [s0CE])).1,
   movement_spec.2.2.2.2 dirLeft 3 [⟨400, 350⟩, ⟨450, 350⟩] (by decide)⟩

/-- Claim C9: the resolver mutates the stored direction on every frame,
including sub-interval frames with no advance, and its reversal check
compares against the most recent request rather than the last movement;
two presses on distinct frames inside one movement interval therefore make
the next advance move in the exact reverse of the previous advance. -/
theorem direction_reversal_bug :
    revFrame1.snakeBody.headI = s0Rev.snakeBody.headI + Vec2.smul cellSize dirLeft ∧
    revFrame2.snakeBody = revFrame1.snakeBody ∧
    revFrame2.lastDirection = dirUp ∧
    revFrame3.snakeBody = revFrame1.snakeBody ∧
    revFrame3.lastDirection = dirRight ∧
    dirRight = -dirLeft ∧
    revFrame4.snakeBody.headI = revFrame3.snakeBody.headI + Vec2.smul cellSize dirRight := by
  rw [revFrame4_eq, revFrame3_eq, revFrame2_eq, revFrame1_eq]
  norm_num [s0Rev, dirUp, dirRight, dirLeft, Vec2.smul, Vec2.add_def,
    Vec2.neg_def, cellSize, List.headI]

/-- Claim C1 (amended): in every running tick the score update runs before
collision evaluation, so a tick increases score by exactly 10 and length
by exactly 1 precisely when the food-eaten event of the previous tick is
still pending, and a tick entered with no pending event increases
neither. -/
theorem score_update_next_tick (s s' : GameState) (k : Keys) (t : ℚ)
    (draws : List (Int × Int)) (hgc : s.gcGameOver = false)
    (h : gameTick s k t draws = some s') :
    s'.score = s.score + (if s.foodEaten = true then scoreMultiplier else 0) ∧
    s'.length = s.length + (if s.foodEaten = true then 1 else 0) := by
  obtain ⟨s3, hc, rfl⟩ := gameTick_running s k t draws s' hgc h
  obtain ⟨sf, hf, rfl⟩ := collisionHandle_some _ draws s3 hc
  have hsf : sf.score = (scoreUpdate (snakeUpdate s k t)).score ∧
      sf.length = (scoreUpdate (snakeUpdate s k t)).length := by
    rcases foodCollisionHandle_some _ draws sf hf with ⟨_, pos, _, rfl⟩ | ⟨_, rfl⟩ <;>
      exact ⟨rfl, rfl⟩
  constructor
  · show (selfCollisionHandle _ _).score = _
    rw [selfCollisionHandle_score, borderCollisionHandle_score, hsf.1,
      (scoreUpdate_score _).1, snakeUpdate_score, snakeUpdate_foodEaten]
  · show (selfCollisionHandle _ _).length = _
    rw [selfCollisionHandle_length, borderCollisionHandle_length, hsf.2,
      (scoreUpdate_score _).2, snakeUpdate_length, snakeUpdate_foodEaten]

/-- Witness for claim C1 (amended): the tick after the concrete food-eaten
event adds exactly 10 to the score and 1 to the length. -/
theorem score_update_next_tick_witness :
    t2CE.score = t1CE.score + (if t1CE.foodEaten = true then scoreMultiplier else 0) ∧
    t2CE.length = t1CE.length + (if t1CE.foodEaten = true then 1 else 0) :=
  score_update_next_tick t1CE t2CE noKeys 2 [] rfl tick2_eq

/-- Counterexample to claim C1 as stated: at `s0CE`, the tick during which
the food-eaten event fires leaves score and length unchanged, and the next
tick, although it has no new food-eaten event, increases both. -/
theorem same_tick_scoring_counterexample :
    s0CE.foodEaten = false ∧
    gameTick s0CE noKeys 1 [(0, 0)] = some t1CE ∧
    t1CE.foodEaten = true ∧
    t1CE.score = s0CE.score ∧ t1CE.length = s0CE.length ∧
    gameTick t1CE noKeys 2 [] = some t2CE ∧
    t2CE.foodEaten = false ∧ t2CE.snakeBody.headI ≠ t2CE.applePos ∧
    t2CE.score = s0CE.score + 10 ∧ t2CE.length = s0CE.length + 1 :=
  ⟨rfl, tick1_eq, rfl, rfl, rfl, tick2_eq, rfl, by decide, by decide, by decide⟩

/-- Claim C2 (amended): if the food lies exactly one cell ahead of the head
in the current direction, then on the tick of the next scheduled advance
the food-eaten event fires and the pending-growth flag is set; the tail is
still removed on that tick (so the body keeps its length until the
following advance), the score-side length counter is unchanged until the
next tick, and the respawned food coordinate avoids every cell of the
current snake body. -/
theorem food_ahead_tick (s s' : GameState) (k : Keys) (t : ℚ)
    (draws : List (Int × Int))
    (hgc : s.gcGameOver = false)
    (hbody : s.snakeBody ≠ [])
    (hseg : s.addSegment = false)
    (hfe : s.foodEaten = false)
    (happle : s.applePos =
      s.snakeBody.headI + Vec2.smul cellSize (resolveDirection k s.lastDirection))
    (hadv : s.interval ≤ t - s.lastUpdateTime)
    (h : gameTick s k t draws = some s') :
    s'.foodEaten = true ∧ s'.addSegment = true ∧
    s'.snakeBody =
      (s.snakeBody.headI + Vec2.smul cellSize (resolveDirection k s.lastDirection))
        :: s.snakeBody.dropLast ∧
    s'.snakeBody.length = s.snakeBody.length ∧
    s'.applePos ∉ s'.snakeBody ∧
    s'.score = s.score ∧ s'.length = s.length := by
  obtain ⟨s3, hc, rfl⟩ := gameTick_running s k t draws s' hgc h
  obtain ⟨sf, hf, rfl⟩ := collisionHandle_some _ draws s3 hc
  have hb2 : (scoreUpdate (snakeUpdate s k t)).snakeBody =
      (s.snakeBody.headI + Vec2.smul cellSize (resolveDirection k s.lastDirection))
        :: s.snakeBody.dropLast := by
    rw [scoreUpdate_snakeBody, (snakeUpdate_body_of_advance s k t hadv).1, hseg,
      moveSnake_false_eq s.snakeBody _ hbody]
  have hhead : (scoreUpdate (snakeUpdate s k t)).snakeBody.headI =
      (scoreUpdate (snakeUpdate s k t)).applePos := by
    rw [hb2, scoreUpdate_applePos, snakeUpdate_applePos, happle, List.headI_cons]
  rcases foodCollisionHandle_some _ draws sf hf with ⟨_, pos, hg, rfl⟩ | ⟨hne, _⟩
  · refine ⟨?_, ?_, ?_, ?_, ?_, ?_, ?_⟩
    · simp only [selfCollisionHandle_foodEaten, borderCollisionHandle_foodEaten]
    · simp only [selfCollisionHandle_addSegment, borderCollisionHandle_addSegment]
    · simp only [selfCollisionHandle_snakeBody, borderCollisionHandle_snakeBody]
      exact hb2
    · simp only [selfCollisionHandle_snakeBody, borderCollisionHandle_snakeBody, hb2,
        List.length_cons, List.length_dropLast]
      exact Nat.succ_pred_eq_of_pos (List.length_pos.mpr hbody)
    · simp only [selfCollisionHandle_applePos, borderCollisionHandle_applePos,
        selfCollisionHandle_snakeBody, borderCollisionHandle_snakeBody]
      exact generateRandomPos_not_mem _ draws pos hg
    · simp only [selfCollisionHandle_score, borderCollisionHandle_score,
        (scoreUpdate_score _).1, snakeUpdate_score, snakeUpdate_foodEaten, hfe]
      simp
    · simp only [selfCollisionHandle_length, borderCollisionHandle_length,
        (scoreUpdate_score _).2, snakeUpdate_length, snakeUpdate_foodEaten, hfe]
      simp
  · exact absurd hhead hne

/-- Witness for claim C2 (amended) at the concrete state `s0CE`, whose
apple is one cell to the left of the head. -/
theorem food_ahead_tick_witness :
    t1CE.foodEaten = true ∧ t1CE.addSegment = true ∧
    t1CE.snakeBody =
      (s0CE.snakeBody.headI +
        Vec2.smul cellSize (resolveDirection noKeys s0CE.lastDirection))
        :: s0CE.snakeBody.dropLast ∧
    t1CE.snakeBody.length = s0CE.snakeBody.length ∧
    t1CE.applePos ∉ t1CE.snakeBody ∧
    t1CE.score = s0CE.score ∧ t1CE.length = s0CE.length :=
  food_ahead_tick s0CE t1CE noKeys 1 [(0, 0)] rfl (by decide) rfl rfl
    (by decide) (by norm_num [s0CE]) tick1_eq

/-- Counterexample to claim C2 as stated: in the concrete food-ahead run
the eating tick does remove the old tail cell `(400, 350)` (the body stays
at two segments) and the length counter is still 2, not 3. -/
theorem food_ahead_counterexample :
    gameTick s0CE noKeys 1 [(0, 0)] = some t1CE ∧
    t1CE.foodEaten = true ∧
    (⟨400, 350⟩ : Vec2) = s0CE.snakeBody.getLast (by decide) ∧
    (⟨400, 350⟩ : Vec2) ∉ t1CE.snakeBody ∧
    t1CE.snakeBody.length = s0CE.snakeBody.length ∧
    t1CE.length = 2 :=
  ⟨tick1_eq, rfl, by decide, by decide, by decide, rfl⟩

/-- Claim C4: for a tick starting with game-over false, collision
evaluation sets game-over exactly when the post-movement head lies outside
the half-open board rectangle or equals a body segment at index at least
one. -/
theorem collision_gameOver_iff (s s' : GameState) (k : Keys) (t : ℚ)
    (draws : List (Int × Int)) (hgc : s.gcGameOver = false)
    (hch : s.chGameOver = false)
    (h : gameTick s k t draws = some s') :
    (s'.gcGameOver = true ↔
      ((snakeUpdate s k t).snakeBody.headI.x < offset ∨
       gridWidth + offset ≤ (snakeUpdate s k t).snakeBody.headI.x ∨
       (snakeUpdate s k t).snakeBody.headI.y < offset ∨
       gridHeight + offset ≤ (snakeUpdate s k t).snakeBody.headI.y) ∨
      (snakeUpdate s k t).snakeBody.headI ∈ (snakeUpdate s k t).snakeBody.tail) := by
  obtain ⟨s3, hc, rfl⟩ := gameTick_running s k t draws s' hgc h
  obtain ⟨sf, hf, rfl⟩ := collisionHandle_some _ draws s3 hc
  have hch2 : sf.chGameOver = false := by
    rcases foodCollisionHandle_some _ draws sf hf with ⟨_, pos, _, rfl⟩ | ⟨_, rfl⟩ <;>
      · show (scoreUpdate (snakeUpdate s k t)).chGameOver = false
        rw [scoreUpdate_chGameOver, snakeUpdate_chGameOver]
        exact hch
  have hbodyf : sf.snakeBody = (snakeUpdate s k t).snakeBody := by
    rcases foodCollisionHandle_some _ draws sf hf with ⟨_, pos, _, rfl⟩ | ⟨_, rfl⟩ <;>
      · show (scoreUpdate (snakeUpdate s k t)).snakeBody = _
        rw [scoreUpdate_snakeBody]
  show (selfCollisionHandle _ _).chGameOver = true ↔ _
  rw [selfCollisionHandle_flag, borderCollisionHandle_flag]
  simp only [borderCollisionHandle_snakeBody, hbodyf, hch2, scoreUpdate_snakeBody]
  tauto

/-- Witness for claim C4 at the concrete tick from `s0CE` to `t1CE`, whose
post-movement head is inside the board and off the tail. -/
theorem collision_gameOver_iff_witness :
    (t1CE.gcGameOver = true ↔
      ((snakeUpdate s0CE noKeys 1).snakeBody.headI.x < offset ∨
       gridWidth + offset ≤ (snakeUpdate s0CE noKeys 1).snakeBody.headI.x ∨
       (snakeUpdate s0CE noKeys 1).snakeBody.headI.y < offset ∨
       gridHeight + offset ≤ (snakeUpdate s0CE noKeys 1).snakeBody.headI.y) ∨
      (snakeUpdate s0CE noKeys 1).snakeBody.headI ∈
        (snakeUpdate s0CE noKeys 1).snakeBody.tail) :=
  collision_gameOver_iff s0CE t1CE noKeys 1 [(0, 0)] rfl rfl tick1_eq

/-- Claim C10: a running tick that completes preserves the invariant that
the food position avoids every cell of the snake body: when the head lands
on the food, the respawn inside the same collision evaluation picks a cell
off the current body, and otherwise the food stays where it was, off the
body. -/
theorem food_never_on_body (s s' : GameState) (k : Keys) (t : ℚ)
    (draws : List (Int × Int))
    (hinv : s.applePos ∉ s.snakeBody)
    (h : gameTick s k t draws = some s') :
    s'.applePos ∉ s'.snakeBody := by
  by_cases hgc : s.gcGameOver = true
  · rw [gameTick_over s k t draws hgc] at h
    injection h with h'
    rw [← h']
    exact hinv
  · obtain ⟨s3, hc, rfl⟩ :=
      gameTick_running s k t draws s' (by simpa using hgc) h
    obtain ⟨sf, hf, rfl⟩ := collisionHandle_some _ draws s3 hc
    rcases foodCollisionHandle_some _ draws sf hf with ⟨_, pos, hg, rfl⟩ | ⟨hne, rfl⟩
    · simp only [selfCollisionHandle_applePos, borderCollisionHandle_applePos,
        selfCollisionHandle_snakeBody, borderCollisionHandle_snakeBody]
      exact generateRandomPos_not_mem _ draws pos hg
    · simp only [selfCollisionHandle_applePos, borderCollisionHandle_applePos,
        selfCollisionHandle_snakeBody, borderCollisionHandle_snakeBody,
        scoreUpdate_applePos, scoreUpdate_snakeBody, snakeUpdate_applePos]
      rw [scoreUpdate_snakeBody, scoreUpdate_applePos, snakeUpdate_applePos] at hne
      rcases snakeUpdate_body_cases s k t with hcase | hcase <;> rw [hcase] <;>
        rw [hcase] at hne
      · exact hinv
      · intro hv
        rcases moveSnake_mem _ _ _ _ hv with h1 | h1
        · refine hne ?_
          rw [moveSnake_headI_of_mem _ _ _ (List.ne_nil_of_mem hv), ← h1]
        · exact hinv h1

/-- Witness for claim C10 at the concrete eating tick from `s0CE`. -/
theorem food_never_on_body_witness :
    t1CE.applePos ∉ t1CE.snakeBody :=
  food_never_on_body s0CE t1CE noKeys 1 [(0, 0)] (by decide) tick1_eq

/-- Claim C7: for every snake body and every in-range draw sequence that
eventually hits a cell off the body (as rejection sampling does with
probability one whenever the body leaves a free cell), the spawner's
iterative loop terminates and returns a grid-aligned cell coordinate on
the board that is not a member of the body. -/
theorem generateRandomPos_spec (body : List Vec2) (draws : List (Int × Int))
    (hvalid : ∀ d ∈ draws, validDraw d)
    (hfree : ∃ d ∈ draws, cellToPos d.1 d.2 ∉ body) :
    ∃ p, generateRandomPos body draws = some p ∧ p ∉ body ∧
      offset ≤ p.x ∧ p.x < offset + gridWidth ∧
      offset ≤ p.y ∧ p.y < offset + gridHeight ∧
      ∃ i j, validDraw (i, j) ∧ p = cellToPos i j := by
  induction draws with
  | nil =>
    obtain ⟨d, hd, _⟩ := hfree
    exact absurd hd (List.not_mem_nil d)
  | cons d ds ih =>
    by_cases hcol : shouldGenerateAgain body (cellToPos d.1 d.2) = true
    · have hfree2 : ∃ e ∈ ds, cellToPos e.1 e.2 ∉ body := by
        rcases hfree with ⟨e, he, hfe⟩
        rcases List.mem_cons.mp he with rfl | he2
        · exact absurd ((shouldGenerateAgain_iff body _).mp hcol) hfe
        · exact ⟨e, he2, hfe⟩
      obtain ⟨p, hp, hrest⟩ :=
        ih (fun e he => hvalid e (List.mem_cons_of_mem d he)) hfree2
      refine ⟨p, ?_, hrest⟩
      unfold generateRandomPos
      rw [if_pos hcol]
      exact hp
    · have hval := hvalid d (List.mem_cons_self d ds)
      have hx0 : (0:ℤ) ≤ d.1 := hval.1
      have hx1 : d.1 ≤ 15 := by
        have := hval.2.1
        simpa [rows, gridHeight, cellSize] using this
      have hy0 : (0:ℤ) ≤ d.2 := hval.2.2.1
      have hy1 : d.2 ≤ 15 := by
        have := hval.2.2.2
        simpa [cols, gridWidth, cellSize] using this
      refine ⟨cellToPos d.1 d.2, ?_, ?_, ?_, ?_, ?_, ?_, d.1, d.2, hval, rfl⟩
      · unfold generateRandomPos
        rw [if_neg hcol]
      · intro hmem
        exact hcol ((shouldGenerateAgain_iff body _).mpr hmem)
      · show offset ≤ d.1 * cellSize + offset
        have h0 : (0:ℤ) ≤ d.1 * cellSize := mul_nonneg hx0 (by norm_num [cellSize])
        linarith
      · show d.1 * cellSize + offset < offset + gridWidth
        have h1 : d.1 * cellSize ≤ 15 * cellSize :=
          mul_le_mul_of_nonneg_right hx1 (by norm_num [cellSize])
        have h2 : (15:ℤ) * cellSize < gridWidth := by norm_num [cellSize, gridWidth]
        linarith
      · show offset ≤ d.2 * cellSize + offset
        have h0 : (0:ℤ) ≤ d.2 * cellSize := mul_nonneg hy0 (by norm_num [cellSize])
        linarith
      · show d.2 * cellSize + offset < offset + gridHeight
        have h1 : d.2 * cellSize ≤ 15 * cellSize :=
          mul_le_mul_of_nonneg_right hy1 (by norm_num [cellSize])
        have h2 : (15:ℤ) * cellSize < gridHeight := by norm_num [cellSize, gridHeight]
        linarith

/-- Witness for claim C7: a single-segment body, a first draw that collides
and a second draw that is accepted. -/
theorem generateRandomPos_spec_witness :
    ∃ p, generateRandomPos [⟨50, 50⟩] [(0, 0), (1, 0)] = some p ∧
      p ∉ [(⟨50, 50⟩ : Vec2)] ∧
      offset ≤ p.x ∧ p.x < offset + gridWidth ∧
      offset ≤ p.y ∧ p.y < offset + gridHeight ∧
      ∃ i j, validDraw (i, j) ∧ p = cellToPos i j :=
  generateRandomPos_spec [⟨50, 50⟩] [(0, 0), (1, 0)] (by decide)
    ⟨(1, 0), by decide, by decide⟩

end SnakeGame
